import Mathlib

/-!
Verification of the Monthly Bill Organizer backend (`main.py`, `schemas.py`).

The metrics engine (`get_budget`) and the alert engine (`get_alerts`) are
embedded shallowly:

* money amounts (Python floats used as decimals) are modelled as `ℚ`;
* calendar dates are modelled as year/month/day triples with the proleptic
  Gregorian ordinal (the value of Python's `date.toordinal`), so date
  comparison and subtraction are ordinal comparison and subtraction;
* Python dicts keyed by category strings are modelled as association lists
  with in-place update, which matches insertion-ordered dict semantics;
* the reference date (`datetime.utcnow().date()` in the code) is an explicit
  parameter, following the pure-function contract of the engines;
* alert message strings are modelled structurally by `AlertMsg`, carrying the
  values the code interpolates into the English text.
-/

namespace BillOrganizer

/-- A calendar date, as Python's `datetime.date`. -/
structure Date where
  year : Nat
  month : Nat
  day : Nat
deriving DecidableEq, Repr

/-- Gregorian leap-year rule, as used by Python's `calendar`. -/
def isLeap (y : Nat) : Bool :=
  (y % 4 == 0 && y % 100 != 0) || (y % 400 == 0)

/-- Number of days in a month: `calendar.monthrange(y, m)[1]`. -/
def monthLen (y m : Nat) : Nat :=
  if m = 2 then (if isLeap y then 29 else 28)
  else if m = 4 ∨ m = 6 ∨ m = 9 ∨ m = 11 then 30
  else 31

/-- Days in year `y` strictly before month `m`. -/
def daysBeforeMonth (y m : Nat) : Nat :=
  ((List.range (m - 1)).map (fun i => monthLen y (i + 1))).sum

/-- Python's `date.toordinal`: day number in the proleptic Gregorian
calendar, with 0001-01-01 mapped to 1. -/
def toOrdinal (d : Date) : Int :=
  let p : Nat := d.year - 1
  365 * (p : Int) + ((p / 4 : Nat) : Int) - ((p / 100 : Nat) : Int)
    + ((p / 400 : Nat) : Int) + (daysBeforeMonth d.year d.month : Int) + (d.day : Int)

/-- A month key, the parsed form of the `"YYYY-MM"` strings the API uses. -/
structure MonthKey where
  year : Nat
  month : Nat
deriving DecidableEq, Repr

/-- `schemas.PlannedExpense`. -/
structure PlannedExpense where
  name : String
  category : String
  amount : ℚ
  due_day : Option Nat
  recurring : Bool
deriving DecidableEq, Repr

/-- `schemas.BudgetMonth`. -/
structure BudgetMonth where
  month : MonthKey
  income : ℚ
  notes : Option String
  planned_expenses : List PlannedExpense
deriving DecidableEq, Repr

/-- `schemas.Transaction`. -/
structure Transaction where
  amount : ℚ
  category : String
  label : Option String
  tx_date : Date
deriving DecidableEq, Repr

/-- A category-to-amount map: a Python dict with string keys, in insertion
order. -/
abbrev CatMap := List (String × ℚ)

/-- Python's `d.get(k, dflt)`. -/
def lookupD : CatMap → String → ℚ → ℚ
  | [], _, dflt => dflt
  | e :: rest, k, dflt => if e.1 = k then e.2 else lookupD rest k dflt

/-- Python's `d[k] = d.get(k, 0.0) + v` on an insertion-ordered dict:
update the existing entry in place, else append at the end. -/
def addToMap : CatMap → String → ℚ → CatMap
  | [], k, v => [(k, v)]
  | e :: rest, k, v =>
    if e.1 = k then (e.1, e.2 + v) :: rest else e :: addToMap rest k v

/-- Accumulate a list of `(category, amount)` pairs into a dict, as the
`for` loops in `get_budget` do. -/
def accumMap (entries : List (String × ℚ)) : CatMap :=
  entries.foldl (fun m e => addToMap m e.1 e.2) []

/-- The `metrics` object computed by `get_budget`. -/
structure Metrics where
  income : ℚ
  planned_total : ℚ
  remaining_planned : ℚ
  actual_spent : ℚ
  remaining_actual : ℚ
  days_left : Int
  daily_limit : ℚ
  weekly_limit : ℚ
  planned_by_category : CatMap
  actual_by_category : CatMap
deriving DecidableEq, Repr

/-- The storage-boundary date filter of `get_budget`: transaction date in
`[first day, last day]` of the month, inclusive (ISO-string comparison on
well-formed dates is chronological comparison). -/
def inMonth (k : MonthKey) (d : Date) : Bool :=
  decide (toOrdinal ⟨k.year, k.month, 1⟩ ≤ toOrdinal d) &&
    decide (toOrdinal d ≤ toOrdinal ⟨k.year, k.month, monthLen k.year k.month⟩)

/-- The metrics computation of `get_budget` (`main.py` lines 76-128). -/
def computeMetrics (k : MonthKey) (plan : BudgetMonth) (txs : List Transaction)
    (today : Date) : Metrics :=
  let income := plan.income
  let planned_total := plan.planned_expenses.foldl (fun s p => s + p.amount) 0
  let intx := txs.filter (fun t => inMonth k t.tx_date)
  let actual_total := intx.foldl (fun s t => s + t.amount) 0
  let remaining_actual := income - actual_total
  let firstO := toOrdinal ⟨k.year, k.month, 1⟩
  let lastO := toOrdinal ⟨k.year, k.month, monthLen k.year k.month⟩
  let tO := toOrdinal today
  let days_left : Int :=
    if tO < firstO then lastO - firstO + 1
    else if lastO < tO then 0
    else lastO - tO + 1
  let daily_limit : ℚ := if 0 < days_left then remaining_actual / (days_left : ℚ) else 0
  { income := income
    planned_total := planned_total
    remaining_planned := max (income - planned_total) 0
    actual_spent := actual_total
    remaining_actual := remaining_actual
    days_left := days_left
    daily_limit := daily_limit
    weekly_limit := daily_limit * 7
    planned_by_category := accumMap (plan.planned_expenses.map (fun p => (p.category, p.amount)))
    actual_by_category := accumMap (intx.map (fun t => (t.category, t.amount))) }

/-- The payload of an alert `message` string, modelled structurally: the
code interpolates these values into fixed English templates. -/
inductive AlertMsg where
  | overspend (category : String) (planned actual : ℚ)
  | lowBudget
  | dueSoon (name : String) (daysUntil : Int)
deriving DecidableEq, Repr

/-- `schemas.Alert` / the dicts appended by `get_alerts`. -/
structure Alert where
  month : MonthKey
  type : String
  message : AlertMsg
  level : String
deriving DecidableEq, Repr

/-- The category of an overspend message, `none` for other messages. -/
def AlertMsg.overspendCategory : AlertMsg → Option String
  | .overspend c _ _ => some c
  | _ => none

/-- One step of the overspend loop of `get_alerts` (lines 199-207): the
alert appended for the entry `e` of `planned_by_category`, if any. -/
def overspendFor (k : MonthKey) (abc : CatMap) (e : String × ℚ) : Option Alert :=
  let actualAmt := lookupD abc e.1 0
  if e.2 < actualAmt ∧ 0 < e.2 then
    some ⟨k, "overspend", .overspend e.1 e.2 actualAmt,
      if actualAmt ≤ e.2 * (5 / 4) then "warning" else "danger"⟩
  else none

/-- The low-budget phase of `get_alerts` (lines 209-219). -/
def lowBudgetAlerts (k : MonthKey) (metrics : Metrics) : List Alert :=
  if 0 < metrics.income then
    if metrics.remaining_actual / metrics.income ≤ 1 / 10 then
      [⟨k, "low_budget", .lowBudget,
        if 0 < metrics.remaining_actual then "warning" else "danger"⟩]
    else []
  else []

/-- The body of the due-soon loop after reading `due_day`: `none` when
`due_day` is falsy (null or 0), otherwise clamp to the month and test the
0..5-day window. -/
def dueSoonDay (k : MonthKey) (today : Date) (name : String) :
    Option Nat → Option Alert
  | none => none
  | some d =>
    if d = 0 then none
    else
      let dd := min (max d 1) (monthLen k.year k.month)
      let du := toOrdinal ⟨k.year, k.month, dd⟩ - toOrdinal today
      if 0 ≤ du ∧ du ≤ 5 then
        some ⟨k, "due_soon", .dueSoon name du,
          if 3 ≤ du then "info" else "warning"⟩
      else none

/-- One step of the due-soon loop of `get_alerts` (lines 225-238). -/
def dueSoonFor (k : MonthKey) (today : Date) (p : PlannedExpense) : Option Alert :=
  dueSoonDay k today p.name p.due_day

/-- The alert engine of `get_alerts` (lines 185-240): overspend alerts,
then the low-budget alert, then due-soon alerts (the due-soon loop runs
under the `plan and plan.get("planned_expenses")` guard). -/
def computeAlerts (k : MonthKey) (plan : BudgetMonth) (metrics : Metrics)
    (today : Date) : List Alert :=
  (metrics.planned_by_category.filterMap (overspendFor k metrics.actual_by_category))
    ++ lowBudgetAlerts k metrics
    ++ (if plan.planned_expenses.isEmpty then []
        else plan.planned_expenses.filterMap (dueSoonFor k today))

/-- The document store: the `budgetmonth` and `transaction` collections. -/
structure Store where
  plans : List BudgetMonth
  txs : List Transaction
deriving DecidableEq, Repr

/-- The `HTTPException`s the handlers raise on request data. -/
inductive ApiError where
  | badRequest
  | notFound
deriving DecidableEq, Repr

/-- `db["budgetmonth"].find_one({"month": month})`. -/
def findPlan (st : Store) (k : MonthKey) : Option BudgetMonth :=
  st.plans.find? (fun p => decide (p.month = k))

/-- The successful response of `GET /api/budget/{month}`. -/
structure BudgetView where
  plan : BudgetMonth
  metrics : Metrics
deriving DecidableEq, Repr

/-- `GET /api/budget/{month}` (`get_budget`): 404 when no plan is stored
for the month, otherwise the plan with its metrics. -/
def getBudget (st : Store) (k : MonthKey) (today : Date) : Except ApiError BudgetView :=
  match findPlan st k with
  | none => .error .notFound
  | some plan => .ok ⟨plan, computeMetrics k plan st.txs today⟩

/-- The response of `GET /api/summary/{month}`. -/
structure Summary where
  month : MonthKey
  income : ℚ
  planned_total : ℚ
  actual_spent : ℚ
  remaining_actual : ℚ
  daily_limit : ℚ
  weekly_limit : ℚ
  planned_by_category : CatMap
  actual_by_category : CatMap
deriving DecidableEq, Repr

/-- `GET /api/summary/{month}` (`month_summary`): a 404 from `get_budget`
is masked to the zero-valued summary built from `metrics.get` defaults. -/
def monthSummary (st : Store) (k : MonthKey) (today : Date) : Except ApiError Summary :=
  match getBudget st k today with
  | .error .notFound => .ok ⟨k, 0, 0, 0, 0, 0, 0, [], []⟩
  | .error e => .error e
  | .ok v => .ok ⟨k, v.metrics.income, v.metrics.planned_total, v.metrics.actual_spent,
      v.metrics.remaining_actual, v.metrics.daily_limit, v.metrics.weekly_limit,
      v.metrics.planned_by_category, v.metrics.actual_by_category⟩

/-- `GET /api/alerts/{month}` (`get_alerts`): a 404 from `get_budget` is
masked to the empty alert list. -/
def alertsForMonth (st : Store) (k : MonthKey) (today : Date) : Except ApiError (List Alert) :=
  match getBudget st k today with
  | .error .notFound => .ok []
  | .error e => .error e
  | .ok v => .ok (computeAlerts k v.plan v.metrics today)

/-- `update_one({"month": month}, {"$set": payload.model_dump()}, upsert=True)`
on documents whose fields are exactly the `BudgetMonth` fields: replace the
first document matching the month key, else insert. -/
def upsertStep : List BudgetMonth → BudgetMonth → List BudgetMonth
  | [], p => [p]
  | q :: rest, p => if q.month = p.month then p :: rest else q :: upsertStep rest p

/-- `POST /api/budget/{month}` (`upsert_budget`): 400 when the path month
and the payload month differ, otherwise upsert the payload. -/
def upsertBudget (st : Store) (k : MonthKey) (payload : BudgetMonth) : Except ApiError Store :=
  if payload.month = k then .ok ⟨upsertStep st.plans payload, st.txs⟩
  else .error .badRequest

/-! ### Helper lemmas about the embedded dictionaries and the calendar -/

/-- The keys of a category map, in order. -/
def keys (m : CatMap) : List String := m.map Prod.fst

/-- The sum of the values of a category map. -/
def valsSum (m : CatMap) : ℚ := (m.map Prod.snd).sum

lemma foldl_add_map {α : Type} (f : α → ℚ) (l : List α) (a : ℚ) :
    l.foldl (fun s x => s + f x) a = a + (l.map f).sum := by
  induction l generalizing a with
  | nil => simp
  | cons x xs ih => simp [ih, add_assoc]

lemma lookupD_addToMap_self (m : CatMap) (k : String) (v : ℚ) :
    lookupD (addToMap m k v) k 0 = lookupD m k 0 + v := by
  induction m with
  | nil => simp [addToMap, lookupD]
  | cons e rest ih =>
    by_cases h : e.1 = k
    · simp [addToMap, h, lookupD]
    · simp [addToMap, h, lookupD, ih]

lemma lookupD_addToMap_ne (m : CatMap) {k q : String} (v d : ℚ) (h : q ≠ k) :
    lookupD (addToMap m k v) q d = lookupD m q d := by
  have hkq : k ≠ q := fun hh => h hh.symm
  induction m with
  | nil =>
    simp only [addToMap, lookupD, if_neg hkq]
  | cons e rest ih =>
    by_cases he : e.1 = k
    · have heq : e.1 ≠ q := he ▸ hkq
      simp only [addToMap, if_pos he]
      simp only [lookupD, if_neg heq]
    · simp only [addToMap, if_neg he]
      by_cases hq : e.1 = q
      · simp only [lookupD, if_pos hq]
      · simp only [lookupD, if_neg hq, ih]

lemma valsSum_addToMap (m : CatMap) (k : String) (v : ℚ) :
    valsSum (addToMap m k v) = valsSum m + v := by
  induction m with
  | nil => simp [addToMap, valsSum]
  | cons e rest ih =>
    by_cases h : e.1 = k
    · simp [addToMap, h, valsSum, List.sum_cons]
      ring
    · simp [addToMap, h, valsSum, List.sum_cons] at ih ⊢
      rw [ih]
      ring

lemma mem_keys_addToMap (m : CatMap) (k x : String) (v : ℚ) :
    x ∈ keys (addToMap m k v) ↔ x ∈ keys m ∨ x = k := by
  induction m with
  | nil => simp [addToMap, keys]
  | cons e rest ih =>
    by_cases h : e.1 = k
    · simp only [addToMap, if_pos h, keys, List.map_cons, List.mem_cons]
      constructor
      · exact fun hx => Or.inl hx
      · rintro (hx | hx)
        · exact hx
        · exact Or.inl (hx.trans h.symm)
    · simp only [keys, List.map_cons] at ih
      simp only [addToMap, if_neg h, keys, List.map_cons, List.mem_cons]
      rw [ih]
      tauto

lemma keys_nodup_addToMap (m : CatMap) (k : String) (v : ℚ)
    (h : (keys m).Nodup) : (keys (addToMap m k v)).Nodup := by
  induction m with
  | nil => simp [addToMap, keys]
  | cons e rest ih =>
    simp only [keys, List.map_cons, List.nodup_cons] at h
    by_cases he : e.1 = k
    · simp only [addToMap, if_pos he, keys, List.map_cons, List.nodup_cons]
      exact h
    · simp only [addToMap, if_neg he, keys, List.map_cons, List.nodup_cons]
      refine ⟨?_, ih h.2⟩
      intro hmem
      rcases (mem_keys_addToMap rest k e.1 v).mp hmem with hx | hx
      · exact h.1 hx
      · exact he hx

lemma keys_nodup_accumAux (l : List (String × ℚ)) (m : CatMap)
    (h : (keys m).Nodup) :
    (keys (l.foldl (fun m e => addToMap m e.1 e.2) m)).Nodup := by
  induction l generalizing m with
  | nil => exact h
  | cons e rest ih =>
    exact ih (addToMap m e.1 e.2) (keys_nodup_addToMap m e.1 e.2 h)

lemma accumMap_keys_nodup (l : List (String × ℚ)) : (keys (accumMap l)).Nodup :=
  keys_nodup_accumAux l [] (by simp [keys])

lemma valsSum_accumAux (l : List (String × ℚ)) (m : CatMap) :
    valsSum (l.foldl (fun m e => addToMap m e.1 e.2) m)
      = valsSum m + (l.map Prod.snd).sum := by
  induction l generalizing m with
  | nil => simp
  | cons e rest ih =>
    simp only [List.foldl_cons, List.map_cons, List.sum_cons]
    rw [ih (addToMap m e.1 e.2), valsSum_addToMap]
    ring

lemma valsSum_accumMap (l : List (String × ℚ)) :
    valsSum (accumMap l) = (l.map Prod.snd).sum := by
  have h := valsSum_accumAux l []
  simpa [accumMap, valsSum] using h

lemma mem_keys_of_mem {m : CatMap} {k : String} {v : ℚ} (h : (k, v) ∈ m) :
    k ∈ keys m := by
  simp only [keys, List.mem_map]
  exact ⟨(k, v), h, rfl⟩

lemma lookupD_eq_of_mem {m : CatMap} {k : String} {v : ℚ}
    (hnd : (keys m).Nodup) (h : (k, v) ∈ m) : lookupD m k 0 = v := by
  induction m with
  | nil => cases h
  | cons e rest ih =>
    simp only [keys, List.map_cons, List.nodup_cons] at hnd
    rcases List.mem_cons.mp h with he | he
    · subst he
      simp [lookupD]
    · have hk : k ∈ keys rest := mem_keys_of_mem he
      have hne : e.1 ≠ k := fun hh => hnd.1 (hh ▸ hk)
      simp [lookupD, hne, ih hnd.2 he]

lemma value_unique_of_nodup {m : CatMap} {k : String} {v w : ℚ}
    (hnd : (keys m).Nodup) (hv : (k, v) ∈ m) (hw : (k, w) ∈ m) : v = w := by
  rw [← lookupD_eq_of_mem hnd hv, ← lookupD_eq_of_mem hnd hw]

lemma toOrdinal_sub_same (y m a b : Nat) :
    toOrdinal ⟨y, m, a⟩ - toOrdinal ⟨y, m, b⟩ = (a : Int) - (b : Int) := by
  simp only [toOrdinal]
  ring

lemma one_le_monthLen (y m : Nat) : 1 ≤ monthLen y m := by
  unfold monthLen
  split_ifs <;> norm_num

/-! ### Unfolding lemmas for the metrics fields -/

lemma computeMetrics_income (k : MonthKey) (plan : BudgetMonth)
    (txs : List Transaction) (today : Date) :
    (computeMetrics k plan txs today).income = plan.income := rfl

lemma computeMetrics_planned_total (k : MonthKey) (plan : BudgetMonth)
    (txs : List Transaction) (today : Date) :
    (computeMetrics k plan txs today).planned_total
      = plan.planned_expenses.foldl (fun s p => s + p.amount) 0 := rfl

lemma computeMetrics_remaining_planned (k : MonthKey) (plan : BudgetMonth)
    (txs : List Transaction) (today : Date) :
    (computeMetrics k plan txs today).remaining_planned
      = max (plan.income - plan.planned_expenses.foldl (fun s p => s + p.amount) 0) 0 := rfl

lemma computeMetrics_actual_spent (k : MonthKey) (plan : BudgetMonth)
    (txs : List Transaction) (today : Date) :
    (computeMetrics k plan txs today).actual_spent
      = (txs.filter (fun t => inMonth k t.tx_date)).foldl (fun s t => s + t.amount) 0 := rfl

lemma computeMetrics_remaining_actual (k : MonthKey) (plan : BudgetMonth)
    (txs : List Transaction) (today : Date) :
    (computeMetrics k plan txs today).remaining_actual
      = plan.income - (computeMetrics k plan txs today).actual_spent := rfl

lemma computeMetrics_days_left (k : MonthKey) (plan : BudgetMonth)
    (txs : List Transaction) (today : Date) :
    (computeMetrics k plan txs today).days_left
      = (if toOrdinal today < toOrdinal ⟨k.year, k.month, 1⟩ then
           toOrdinal ⟨k.year, k.month, monthLen k.year k.month⟩
             - toOrdinal ⟨k.year, k.month, 1⟩ + 1
         else if toOrdinal ⟨k.year, k.month, monthLen k.year k.month⟩ < toOrdinal today then 0
         else toOrdinal ⟨k.year, k.month, monthLen k.year k.month⟩ - toOrdinal today + 1) := rfl

lemma computeMetrics_daily_limit (k : MonthKey) (plan : BudgetMonth)
    (txs : List Transaction) (today : Date) :
    (computeMetrics k plan txs today).daily_limit
      = (if 0 < (computeMetrics k plan txs today).days_left then
           (computeMetrics k plan txs today).remaining_actual
             / ((computeMetrics k plan txs today).days_left : ℚ)
         else 0) := rfl

lemma computeMetrics_weekly_limit (k : MonthKey) (plan : BudgetMonth)
    (txs : List Transaction) (today : Date) :
    (computeMetrics k plan txs today).weekly_limit
      = (computeMetrics k plan txs today).daily_limit * 7 := rfl

lemma computeMetrics_planned_by_category (k : MonthKey) (plan : BudgetMonth)
    (txs : List Transaction) (today : Date) :
    (computeMetrics k plan txs today).planned_by_category
      = accumMap (plan.planned_expenses.map (fun p => (p.category, p.amount))) := rfl

lemma computeMetrics_actual_by_category (k : MonthKey) (plan : BudgetMonth)
    (txs : List Transaction) (today : Date) :
    (computeMetrics k plan txs today).actual_by_category
      = accumMap ((txs.filter (fun t => inMonth k t.tx_date)).map
          (fun t => (t.category, t.amount))) := rfl

/-! ### Inversion lemmas for the three alert phases -/

lemma overspendFor_eq_some {k : MonthKey} {abc : CatMap} {e : String × ℚ} {a : Alert}
    (h : overspendFor k abc e = some a) :
    (e.2 < lookupD abc e.1 0 ∧ 0 < e.2) ∧
      a = ⟨k, "overspend", .overspend e.1 e.2 (lookupD abc e.1 0),
            if lookupD abc e.1 0 ≤ e.2 * (5 / 4) then "warning" else "danger"⟩ := by
  by_cases hc : e.2 < lookupD abc e.1 0 ∧ 0 < e.2
  · refine ⟨hc, ?_⟩
    simp only [overspendFor, if_pos hc] at h
    exact (Option.some.inj h).symm
  · simp only [overspendFor, if_neg hc] at h
    cases h

lemma overspendFor_emits {k : MonthKey} {abc : CatMap} {e : String × ℚ}
    (hc : e.2 < lookupD abc e.1 0 ∧ 0 < e.2) :
    overspendFor k abc e
      = some ⟨k, "overspend", .overspend e.1 e.2 (lookupD abc e.1 0),
          if lookupD abc e.1 0 ≤ e.2 * (5 / 4) then "warning" else "danger"⟩ := by
  simp only [overspendFor, if_pos hc]

lemma overspendFor_silent {k : MonthKey} {abc : CatMap} {e : String × ℚ}
    (hc : ¬(e.2 < lookupD abc e.1 0 ∧ 0 < e.2)) :
    overspendFor k abc e = none := by
  simp only [overspendFor, if_neg hc]

lemma mem_lowBudgetAlerts {k : MonthKey} {metrics : Metrics} {a : Alert}
    (h : a ∈ lowBudgetAlerts k metrics) :
    a.type = "low_budget" ∧ a.message = .lowBudget := by
  unfold lowBudgetAlerts at h
  split_ifs at h <;>
    first
      | (rcases List.mem_singleton.mp h with rfl; exact ⟨rfl, rfl⟩)
      | cases h

lemma lowBudgetAlerts_eq (k : MonthKey) (metrics : Metrics) :
    lowBudgetAlerts k metrics
      = (if 0 < metrics.income ∧ metrics.remaining_actual / metrics.income ≤ 1 / 10 then
          [⟨k, "low_budget", .lowBudget,
            if 0 < metrics.remaining_actual then "warning" else "danger"⟩]
        else []) := by
  unfold lowBudgetAlerts
  by_cases h1 : 0 < metrics.income
  · by_cases h2 : metrics.remaining_actual / metrics.income ≤ 1 / 10
    · have hc : 0 < metrics.income ∧ metrics.remaining_actual / metrics.income ≤ 1 / 10 :=
        ⟨h1, h2⟩
      rw [if_pos h1, if_pos h2, if_pos hc]
    · have hc : ¬(0 < metrics.income ∧ metrics.remaining_actual / metrics.income ≤ 1 / 10) :=
        fun hc => h2 hc.2
      rw [if_pos h1, if_neg h2, if_neg hc]
  · have hc : ¬(0 < metrics.income ∧ metrics.remaining_actual / metrics.income ≤ 1 / 10) :=
      fun hc => h1 hc.1
    rw [if_neg h1, if_neg hc]

lemma dueSoonFor_eq_some {k : MonthKey} {today : Date} {p : PlannedExpense} {a : Alert}
    (h : dueSoonFor k today p = some a) :
    ∃ d : Nat, p.due_day = some d ∧ d ≠ 0 ∧
      (0 ≤ toOrdinal ⟨k.year, k.month, min (max d 1) (monthLen k.year k.month)⟩ - toOrdinal today
        ∧ toOrdinal ⟨k.year, k.month, min (max d 1) (monthLen k.year k.month)⟩ - toOrdinal today ≤ 5) ∧
      a = ⟨k, "due_soon",
            .dueSoon p.name
              (toOrdinal ⟨k.year, k.month, min (max d 1) (monthLen k.year k.month)⟩ - toOrdinal today),
            if 3 ≤ toOrdinal ⟨k.year, k.month, min (max d 1) (monthLen k.year k.month)⟩ - toOrdinal today
            then "info" else "warning"⟩ := by
  unfold dueSoonFor at h
  cases hd : p.due_day with
  | none => rw [hd] at h; cases h
  | some d =>
    rw [hd] at h
    simp only [dueSoonDay] at h
    by_cases hd0 : d = 0
    · rw [if_pos hd0] at h; cases h
    · rw [if_neg hd0] at h
      by_cases hw : 0 ≤ toOrdinal ⟨k.year, k.month, min (max d 1) (monthLen k.year k.month)⟩ - toOrdinal today
          ∧ toOrdinal ⟨k.year, k.month, min (max d 1) (monthLen k.year k.month)⟩ - toOrdinal today ≤ 5
      · simp only [if_pos hw] at h
        exact ⟨d, rfl, hd0, hw, (Option.some.inj h).symm⟩
      · simp only [if_neg hw] at h
        cases h

lemma filter_overspendPart_nil {k : MonthKey} (abc : CatMap) (cat : String)
    (pbc : CatMap) (hcat : cat ∉ keys pbc) :
    (pbc.filterMap (overspendFor k abc)).filter
      (fun a => decide (a.message.overspendCategory = some cat)) = [] := by
  induction pbc with
  | nil => rfl
  | cons e rest ih =>
    simp only [keys, List.map_cons, List.mem_cons, not_or] at hcat
    have hcat_rest : cat ∉ keys rest := hcat.2
    have hne : e.1 ≠ cat := fun hx => hcat.1 hx.symm
    rw [List.filterMap_cons]
    cases hfe : overspendFor k abc e with
    | none => exact ih hcat_rest
    | some a =>
      rcases overspendFor_eq_some hfe with ⟨hc, rfl⟩
      rw [List.filter_cons_of_neg, ih hcat_rest]
      simp [AlertMsg.overspendCategory, hne]

lemma filter_overspendPart {k : MonthKey} (abc : CatMap) (cat : String) (plannedAmt : ℚ)
    (pbc : CatMap) (hnd : (keys pbc).Nodup) (hmem : (cat, plannedAmt) ∈ pbc) :
    (pbc.filterMap (overspendFor k abc)).filter
        (fun a => decide (a.message.overspendCategory = some cat))
      = (if plannedAmt < lookupD abc cat 0 ∧ 0 < plannedAmt then
          [⟨k, "overspend", .overspend cat plannedAmt (lookupD abc cat 0),
            if lookupD abc cat 0 ≤ plannedAmt * (5 / 4) then "warning" else "danger"⟩]
        else []) := by
  induction pbc with
  | nil => cases hmem
  | cons e rest ih =>
    simp only [keys, List.map_cons, List.nodup_cons] at hnd
    rcases List.mem_cons.mp hmem with he | he
    · have hcat_rest : cat ∉ keys rest := by
        have : e.1 = cat := by rw [← he]
        exact this ▸ hnd.1
      rw [List.filterMap_cons]
      by_cases hc : plannedAmt < lookupD abc cat 0 ∧ 0 < plannedAmt
      · have hemit := @overspendFor_emits k abc (cat, plannedAmt) hc
        rw [← he, hemit, List.filter_cons_of_pos, filter_overspendPart_nil abc cat rest hcat_rest,
          if_pos hc]
        simp [AlertMsg.overspendCategory]
      · have hquiet := @overspendFor_silent k abc (cat, plannedAmt) hc
        rw [← he, hquiet, filter_overspendPart_nil abc cat rest hcat_rest, if_neg hc]
    · have hne : e.1 ≠ cat := fun hx => hnd.1 (hx ▸ mem_keys_of_mem he)
      rw [List.filterMap_cons]
      cases hfe : overspendFor k abc e with
      | none => exact ih hnd.2 he
      | some a =>
        rcases overspendFor_eq_some hfe with ⟨hc, rfl⟩
        rw [List.filter_cons_of_neg, ih hnd.2 he]
        simp [AlertMsg.overspendCategory, hne]

lemma filter_overspendCategory_lowBudget (k : MonthKey) (metrics : Metrics) (cat : String) :
    (lowBudgetAlerts k metrics).filter
      (fun a => decide (a.message.overspendCategory = some cat)) = [] := by
  rw [List.filter_eq_nil_iff]
  intro a ha
  have h := (mem_lowBudgetAlerts ha).2
  simp [h, AlertMsg.overspendCategory]

lemma filter_overspendCategory_dueSoon (k : MonthKey) (plan : BudgetMonth)
    (today : Date) (cat : String) :
    ((if plan.planned_expenses.isEmpty then []
       else plan.planned_expenses.filterMap (dueSoonFor k today)).filter
      (fun a => decide (a.message.overspendCategory = some cat))) = [] := by
  rw [List.filter_eq_nil_iff]
  intro a ha
  split_ifs at ha with hempty
  · cases ha
  · rcases List.mem_filterMap.mp ha with ⟨p, _, hfe⟩
    rcases dueSoonFor_eq_some hfe with ⟨d, _, _, _, rfl⟩
    simp [AlertMsg.overspendCategory]

/-! ### Concrete data for the witnesses (the spec's Scenario A/B) -/

/-- February 2024, the month of the spec's example scenarios. -/
def K0 : MonthKey := ⟨2024, 2⟩

/-- The Scenario A/B plan: income 1000, one planned expense Rent/1200 due on day 5. -/
def plan0 : BudgetMonth := ⟨K0, 1000, none, [⟨"Rent", "rent", 1200, some 5, true⟩]⟩

/-- The Scenario B transaction: 1300 spent on rent on 2024-02-10. -/
def t0 : Transaction := ⟨1300, "rent", none, ⟨2024, 2, 10⟩⟩

/-- The Scenario A/B reference date, 2024-02-01. -/
def today0 : Date := ⟨2024, 2, 1⟩

/-! ### The claims -/

/-- C1: for every category present in `planned_by_category`, an overspend
alert is emitted iff the actual spend for that category (0 when absent from
`actual_by_category`) strictly exceeds the planned amount and the planned
amount is strictly positive; the alert has level "warning" when the actual
amount is at most 1.25 times the planned amount and "danger" otherwise. -/
theorem overspend_alerts_spec (k : MonthKey) (plan : BudgetMonth)
    (txs : List Transaction) (today : Date) (cat : String) (plannedAmt : ℚ)
    (hmem : (cat, plannedAmt) ∈ (computeMetrics k plan txs today).planned_by_category) :
    (computeAlerts k plan (computeMetrics k plan txs today) today).filter
        (fun a => decide (a.message.overspendCategory = some cat))
      = (if plannedAmt < lookupD (computeMetrics k plan txs today).actual_by_category cat 0
          ∧ 0 < plannedAmt then
          [⟨k, "overspend",
            .overspend cat plannedAmt
              (lookupD (computeMetrics k plan txs today).actual_by_category cat 0),
            if lookupD (computeMetrics k plan txs today).actual_by_category cat 0
                ≤ plannedAmt * (5 / 4)
            then "warning" else "danger"⟩]
        else []) := by
  have hnd : (keys (computeMetrics k plan txs today).planned_by_category).Nodup := by
    rw [computeMetrics_planned_by_category]
    exact accumMap_keys_nodup _
  unfold computeAlerts
  rw [List.filter_append, List.filter_append,
    filter_overspendPart (computeMetrics k plan txs today).actual_by_category cat plannedAmt
      (computeMetrics k plan txs today).planned_by_category hnd hmem,
    filter_overspendCategory_lowBudget, filter_overspendCategory_dueSoon,
    List.append_nil, List.append_nil]

/-- Witness for C1 at the spec's Scenario B: the rent category (planned
1200, actual 1300) yields exactly one overspend alert, level "warning". -/
theorem overspend_alerts_witness :
    (computeAlerts K0 plan0 (computeMetrics K0 plan0 [t0] today0) today0).filter
        (fun a => decide (a.message.overspendCategory = some "rent"))
      = [⟨K0, "overspend", .overspend "rent" 1200 1300, "warning"⟩] := by
  have h := overspend_alerts_spec K0 plan0 [t0] today0 "rent" 1200 (by decide)
  have hl : lookupD (computeMetrics K0 plan0 [t0] today0).actual_by_category "rent" 0
      = 1300 := rfl
  rw [hl] at h
  rw [h, if_pos (by norm_num : (1200 : ℚ) < 1300 ∧ (0 : ℚ) < 1200),
    if_pos (by norm_num : (1300 : ℚ) ≤ 1200 * (5 / 4))]

/-- Every alert of the overspend phase has type "overspend". -/
lemma mem_overspendPart_type {k : MonthKey} {abc pbc : CatMap} {a : Alert}
    (h : a ∈ pbc.filterMap (overspendFor k abc)) : a.type = "overspend" := by
  rcases List.mem_filterMap.mp h with ⟨e, _, hfe⟩
  rcases overspendFor_eq_some hfe with ⟨_, rfl⟩
  rfl

/-- Every alert of the due-soon phase has type "due_soon". -/
lemma mem_dueSoonPart_type {k : MonthKey} {today : Date} {plan : BudgetMonth} {a : Alert}
    (h : a ∈ (if plan.planned_expenses.isEmpty then []
        else plan.planned_expenses.filterMap (dueSoonFor k today))) :
    a.type = "due_soon" := by
  split_ifs at h with hempty
  · cases h
  · rcases List.mem_filterMap.mp h with ⟨p, _, hfe⟩
    rcases dueSoonFor_eq_some hfe with ⟨d, _, _, _, rfl⟩
    rfl

/-- C2: for every planned expense, a null or zero `due_day` produces no
due-soon alert; otherwise, with `due_day` clamped into [1, last day] and
`days_until` the signed day difference, an alert is produced iff
`0 ≤ days_until ≤ 5`, with level "info" when `days_until ≥ 3` and
"warning" otherwise; any produced alert appears in the invocation's output,
and the output carries at most one due-soon alert per planned expense. -/
theorem due_soon_alerts_spec (k : MonthKey) (plan : BudgetMonth) (metrics : Metrics)
    (today : Date) (p : PlannedExpense) (hmem : p ∈ plan.planned_expenses) :
    (p.due_day = none → dueSoonFor k today p = none)
    ∧ (p.due_day = some 0 → dueSoonFor k today p = none)
    ∧ (∀ d : Nat, p.due_day = some d → d ≠ 0 →
        dueSoonFor k today p
          = (if 0 ≤ toOrdinal ⟨k.year, k.month, min (max d 1) (monthLen k.year k.month)⟩
                  - toOrdinal today
                ∧ toOrdinal ⟨k.year, k.month, min (max d 1) (monthLen k.year k.month)⟩
                  - toOrdinal today ≤ 5 then
              some ⟨k, "due_soon",
                .dueSoon p.name
                  (toOrdinal ⟨k.year, k.month, min (max d 1) (monthLen k.year k.month)⟩
                    - toOrdinal today),
                if 3 ≤ toOrdinal ⟨k.year, k.month, min (max d 1) (monthLen k.year k.month)⟩
                    - toOrdinal today
                then "info" else "warning"⟩
            else none))
    ∧ (∀ a : Alert, dueSoonFor k today p = some a → a ∈ computeAlerts k plan metrics today)
    ∧ (computeAlerts k plan metrics today).countP (fun a => decide (a.type = "due_soon"))
        ≤ plan.planned_expenses.length := by
  refine ⟨?_, ?_, ?_, ?_, ?_⟩
  · intro h
    unfold dueSoonFor
    rw [h]
    rfl
  · intro h
    unfold dueSoonFor
    rw [h]
    simp [dueSoonDay]
  · intro d hd hd0
    unfold dueSoonFor
    rw [hd]
    simp only [dueSoonDay, if_neg hd0]
  · intro a ha
    have hne : plan.planned_expenses ≠ [] := List.ne_nil_of_mem hmem
    have hempty : plan.planned_expenses.isEmpty = false := by
      cases hl : plan.planned_expenses with
      | nil => exact absurd hl hne
      | cons q rest => rfl
    unfold computeAlerts
    rw [hempty]
    refine List.mem_append.mpr (Or.inr ?_)
    simp only [Bool.false_eq_true, if_false]
    exact List.mem_filterMap.mpr ⟨p, hmem, ha⟩
  · unfold computeAlerts
    rw [List.countP_append, List.countP_append]
    have hos : (metrics.planned_by_category.filterMap
        (overspendFor k metrics.actual_by_category)).countP
          (fun a => decide (a.type = "due_soon")) = 0 := by
      rw [List.countP_eq_zero]
      intro a ha
      simp [mem_overspendPart_type ha]
    have hlb : (lowBudgetAlerts k metrics).countP (fun a => decide (a.type = "due_soon")) = 0 := by
      rw [List.countP_eq_zero]
      intro a ha
      simp [(mem_lowBudgetAlerts ha).1]
    have hds : (if plan.planned_expenses.isEmpty then []
        else plan.planned_expenses.filterMap (dueSoonFor k today)).countP
          (fun a => decide (a.type = "due_soon")) ≤ plan.planned_expenses.length := by
      split_ifs
      · simp
      · exact le_trans (List.countP_le_length _)
          (List.length_filterMap_le _ _)
    rw [hos, hlb]
    simpa using hds

/-- Witness for C2 at the spec's Scenario A: Rent due on day 5 seen from
2024-02-01 gives `days_until = 4` and an "info" due-soon alert in the
output. -/
theorem due_soon_alerts_witness :
    (⟨K0, "due_soon", AlertMsg.dueSoon "Rent" 4, "info"⟩ : Alert)
      ∈ computeAlerts K0 plan0 (computeMetrics K0 plan0 [t0] today0) today0 := by
  have h := due_soon_alerts_spec K0 plan0 (computeMetrics K0 plan0 [t0] today0) today0
    ⟨"Rent", "rent", 1200, some 5, true⟩ (by decide)
  exact h.2.2.2.1 _ (by decide)

/-- C3: a low-budget alert is emitted iff `income > 0` and
`remaining_actual / income ≤ 0.1`; at most one per invocation, with level
"warning" when `remaining_actual > 0` and "danger" otherwise; with
`income = 0` no low-budget alert is emitted. -/
theorem low_budget_alerts_spec (k : MonthKey) (plan : BudgetMonth) (metrics : Metrics)
    (today : Date) :
    (computeAlerts k plan metrics today).filter (fun a => decide (a.type = "low_budget"))
      = (if 0 < metrics.income ∧ metrics.remaining_actual / metrics.income ≤ 1 / 10 then
          [⟨k, "low_budget", .lowBudget,
            if 0 < metrics.remaining_actual then "warning" else "danger"⟩]
        else []) := by
  unfold computeAlerts
  rw [List.filter_append, List.filter_append]
  have hos : (metrics.planned_by_category.filterMap
      (overspendFor k metrics.actual_by_category)).filter
        (fun a => decide (a.type = "low_budget")) = [] := by
    rw [List.filter_eq_nil_iff]
    intro a ha
    simp [mem_overspendPart_type ha]
  have hds : (if plan.planned_expenses.isEmpty then []
      else plan.planned_expenses.filterMap (dueSoonFor k today)).filter
        (fun a => decide (a.type = "low_budget")) = [] := by
    rw [List.filter_eq_nil_iff]
    intro a ha
    simp [mem_dueSoonPart_type ha]
  have hlb : (lowBudgetAlerts k metrics).filter (fun a => decide (a.type = "low_budget"))
      = lowBudgetAlerts k metrics := by
    rw [List.filter_eq_self]
    intro a ha
    simp [(mem_lowBudgetAlerts ha).1]
  rw [hos, hds, hlb, List.nil_append, List.append_nil, lowBudgetAlerts_eq]

/-- C4: a reference date strictly after the month's last day gives
`days_left = 0` and `daily_limit = 0`; strictly before the first day gives
`days_left` equal to the month's day count; otherwise
`days_left = (last day − reference) + 1`; and whenever `days_left > 0`,
`daily_limit = remaining_actual / days_left`. -/
theorem days_left_spec (k : MonthKey) (plan : BudgetMonth) (txs : List Transaction)
    (today : Date) :
    (toOrdinal ⟨k.year, k.month, monthLen k.year k.month⟩ < toOrdinal today →
      (computeMetrics k plan txs today).days_left = 0
        ∧ (computeMetrics k plan txs today).daily_limit = 0)
    ∧ (toOrdinal today < toOrdinal ⟨k.year, k.month, 1⟩ →
      (computeMetrics k plan txs today).days_left = (monthLen k.year k.month : Int))
    ∧ (toOrdinal ⟨k.year, k.month, 1⟩ ≤ toOrdinal today →
        toOrdinal today ≤ toOrdinal ⟨k.year, k.month, monthLen k.year k.month⟩ →
      (computeMetrics k plan txs today).days_left
        = toOrdinal ⟨k.year, k.month, monthLen k.year k.month⟩ - toOrdinal today + 1)
    ∧ (0 < (computeMetrics k plan txs today).days_left →
      (computeMetrics k plan txs today).daily_limit
        = (computeMetrics k plan txs today).remaining_actual
            / ((computeMetrics k plan txs today).days_left : ℚ)) := by
  have hsub := toOrdinal_sub_same k.year k.month (monthLen k.year k.month) 1
  have hlen := one_le_monthLen k.year k.month
  refine ⟨?_, ?_, ?_, ?_⟩
  · intro h
    have hfl : toOrdinal ⟨k.year, k.month, 1⟩
        ≤ toOrdinal ⟨k.year, k.month, monthLen k.year k.month⟩ := by omega
    have hdl : (computeMetrics k plan txs today).days_left = 0 := by
      rw [computeMetrics_days_left, if_neg (by omega), if_pos h]
    refine ⟨hdl, ?_⟩
    rw [computeMetrics_daily_limit, hdl]
    norm_num
  · intro h
    rw [computeMetrics_days_left, if_pos h]
    omega
  · intro h1 h2
    rw [computeMetrics_days_left, if_neg (by omega), if_neg (by omega)]
  · intro h
    rw [computeMetrics_daily_limit, if_pos h]

/-- Witness for C4: from 2024-03-05, strictly after February 2024's last
day, the metrics report zero days left and a zero daily limit. -/
theorem days_left_witness :
    (computeMetrics K0 plan0 [t0] ⟨2024, 3, 5⟩).days_left = 0
      ∧ (computeMetrics K0 plan0 [t0] ⟨2024, 3, 5⟩).daily_limit = 0 :=
  (days_left_spec K0 plan0 [t0] ⟨2024, 3, 5⟩).1 (by decide)

/-- C5: `remaining_planned = max(income − planned_total, 0)` with
`planned_total` the sum of the planned expense amounts, and it is never
negative. -/
theorem remaining_planned_spec (k : MonthKey) (plan : BudgetMonth)
    (txs : List Transaction) (today : Date) :
    (computeMetrics k plan txs today).remaining_planned
        = max (plan.income - (plan.planned_expenses.map (fun p => p.amount)).sum) 0
      ∧ 0 ≤ (computeMetrics k plan txs today).remaining_planned := by
  constructor
  · rw [computeMetrics_remaining_planned, foldl_add_map, zero_add]
  · rw [computeMetrics_remaining_planned]
    exact le_max_right _ _

/-- C6: the values of `actual_by_category` sum to `actual_spent`
(partition property), and `weekly_limit = daily_limit × 7` exactly. -/
theorem category_partition_spec (k : MonthKey) (plan : BudgetMonth)
    (txs : List Transaction) (today : Date) :
    valsSum (computeMetrics k plan txs today).actual_by_category
        = (computeMetrics k plan txs today).actual_spent
      ∧ (computeMetrics k plan txs today).weekly_limit
        = (computeMetrics k plan txs today).daily_limit * 7 := by
  constructor
  · rw [computeMetrics_actual_by_category, computeMetrics_actual_spent, valsSum_accumMap,
      foldl_add_map, zero_add, List.map_map]
    rfl
  · exact computeMetrics_weekly_limit k plan txs today

/-- C7: when no plan is stored for a month, plan retrieval fails with
not-found, while the summary endpoint returns the zero-valued summary and
the alerts endpoint returns the empty list, both without error. -/
theorem absent_month_spec (st : Store) (k : MonthKey) (today : Date)
    (h : findPlan st k = none) :
    getBudget st k today = .error .notFound
      ∧ monthSummary st k today = .ok ⟨k, 0, 0, 0, 0, 0, 0, [], []⟩
      ∧ alertsForMonth st k today = .ok [] := by
  have hb : getBudget st k today = .error .notFound := by
    unfold getBudget
    rw [h]
  refine ⟨hb, ?_, ?_⟩
  · unfold monthSummary
    rw [hb]
  · unfold alertsForMonth
    rw [hb]

/-- Witness for C7: the empty store has no plan for February 2024. -/
theorem absent_month_witness :
    getBudget ⟨[], []⟩ K0 today0 = .error .notFound
      ∧ monthSummary ⟨[], []⟩ K0 today0 = .ok ⟨K0, 0, 0, 0, 0, 0, 0, [], []⟩
      ∧ alertsForMonth ⟨[], []⟩ K0 today0 = .ok [] :=
  absent_month_spec ⟨[], []⟩ K0 today0 rfl

lemma findPlan_upsertStep (l : List BudgetMonth) (p : BudgetMonth) :
    (upsertStep l p).find? (fun q => decide (q.month = p.month)) = some p := by
  induction l with
  | nil => simp [upsertStep]
  | cons q rest ih =>
    by_cases h : q.month = p.month
    · simp [upsertStep, h]
    · simp only [upsertStep, if_neg h, List.find?]
      rw [decide_eq_false h]
      exact ih

/-- C8: a successful upsert stores exactly the submitted document under its
month key: the upsert succeeds (the payload month matches the path month)
and looking the month up afterwards returns the submitted document itself. -/
theorem upsert_replaces_spec (st : Store) (k : MonthKey) (payload : BudgetMonth)
    (h : payload.month = k) :
    upsertBudget st k payload = .ok ⟨upsertStep st.plans payload, st.txs⟩
      ∧ findPlan ⟨upsertStep st.plans payload, st.txs⟩ k = some payload := by
  constructor
  · unfold upsertBudget
    rw [if_pos h]
  · unfold findPlan
    rw [← h]
    exact findPlan_upsertStep st.plans payload

/-- Witness for C8: upserting the Scenario plan over a different stored
plan for the same month replaces it wholesale. -/
theorem upsert_replaces_witness :
    upsertBudget ⟨[⟨K0, 5, some "old", []⟩], []⟩ K0 plan0 = .ok ⟨[plan0], []⟩
      ∧ findPlan ⟨[plan0], []⟩ K0 = some plan0 :=
  upsert_replaces_spec ⟨[⟨K0, 5, some "old", []⟩], []⟩ K0 plan0 rfl

/-- The phase of an alert in the fixed output order of `get_alerts`. -/
def alertRank (a : Alert) : Nat :=
  if a.type = "overspend" then 0
  else if a.type = "low_budget" then 1
  else 2

/-- C9: in any single invocation's output, every overspend alert precedes
every low-budget alert, which precedes every due-soon alert. -/
theorem alert_order_spec (k : MonthKey) (plan : BudgetMonth) (metrics : Metrics)
    (today : Date) :
    List.Pairwise (fun a b => alertRank a ≤ alertRank b)
      (computeAlerts k plan metrics today) := by
  unfold computeAlerts
  have hos : ∀ a ∈ metrics.planned_by_category.filterMap
      (overspendFor k metrics.actual_by_category), alertRank a = 0 := by
    intro a ha
    simp [alertRank, mem_overspendPart_type ha]
  have hlb : ∀ a ∈ lowBudgetAlerts k metrics, alertRank a = 1 := by
    intro a ha
    have h := (mem_lowBudgetAlerts ha).1
    rw [alertRank, if_neg (by rw [h]; decide), if_pos h]
  have hds : ∀ a ∈ (if plan.planned_expenses.isEmpty then []
      else plan.planned_expenses.filterMap (dueSoonFor k today)), alertRank a = 2 := by
    intro a ha
    have h := mem_dueSoonPart_type ha
    rw [alertRank, if_neg (by rw [h]; decide), if_neg (by rw [h]; decide)]
  rw [List.pairwise_append]
  refine ⟨?_, ?_, ?_⟩
  · rw [List.pairwise_append]
    refine ⟨?_, ?_, ?_⟩
    · exact List.pairwise_of_forall_mem_list (fun a ha b hb => by
        rw [hos a ha, hos b hb])
    · exact List.pairwise_of_forall_mem_list (fun a ha b hb => by
        rw [hlb a ha, hlb b hb])
    · intro a ha b hb
      rw [hos a ha, hlb b hb]
      norm_num
  · exact List.pairwise_of_forall_mem_list (fun a ha b hb => by
      rw [hds a ha, hds b hb])
  · intro a ha b hb
    rcases List.mem_append.mp ha with h1 | h1
    · rw [hos a h1, hds b hb]
      norm_num
    · rw [hlb a h1, hds b hb]
      norm_num

/-- C10: adding one in-month transaction of (schema-positive) amount `a`
raises `actual_spent` by `a`, lowers `remaining_actual` by `a`, raises its
category's total in `actual_by_category` by `a`, and leaves `income`,
`planned_total`, `remaining_planned`, `days_left` and `planned_by_category`
unchanged. -/
theorem add_transaction_spec (k : MonthKey) (plan : BudgetMonth)
    (txs : List Transaction) (today : Date) (t : Transaction)
    (hin : inMonth k t.tx_date = true) (hpos : 0 < t.amount) :
    (computeMetrics k plan (txs ++ [t]) today).actual_spent
        = (computeMetrics k plan txs today).actual_spent + t.amount
      ∧ (computeMetrics k plan (txs ++ [t]) today).remaining_actual
        = (computeMetrics k plan txs today).remaining_actual - t.amount
      ∧ lookupD (computeMetrics k plan (txs ++ [t]) today).actual_by_category t.category 0
        = lookupD (computeMetrics k plan txs today).actual_by_category t.category 0 + t.amount
      ∧ (computeMetrics k plan (txs ++ [t]) today).income
        = (computeMetrics k plan txs today).income
      ∧ (computeMetrics k plan (txs ++ [t]) today).planned_total
        = (computeMetrics k plan txs today).planned_total
      ∧ (computeMetrics k plan (txs ++ [t]) today).remaining_planned
        = (computeMetrics k plan txs today).remaining_planned
      ∧ (computeMetrics k plan (txs ++ [t]) today).days_left
        = (computeMetrics k plan txs today).days_left
      ∧ (computeMetrics k plan (txs ++ [t]) today).planned_by_category
        = (computeMetrics k plan txs today).planned_by_category := by
  have hfilter : (txs ++ [t]).filter (fun u => inMonth k u.tx_date)
      = txs.filter (fun u => inMonth k u.tx_date) ++ [t] := by
    rw [List.filter_append]
    simp [List.filter, hin]
  have hspent : (computeMetrics k plan (txs ++ [t]) today).actual_spent
      = (computeMetrics k plan txs today).actual_spent + t.amount := by
    rw [computeMetrics_actual_spent, computeMetrics_actual_spent, hfilter,
      foldl_add_map, foldl_add_map, List.map_append, List.sum_append]
    simp
  refine ⟨hspent, ?_, ?_, rfl, rfl, rfl, rfl, rfl⟩
  · rw [computeMetrics_remaining_actual, computeMetrics_remaining_actual, hspent]
    ring
  · rw [computeMetrics_actual_by_category, computeMetrics_actual_by_category, hfilter,
      List.map_append]
    unfold accumMap
    rw [List.foldl_append]
    simp only [List.map_cons, List.map_nil, List.foldl_cons, List.foldl_nil]
    exact lookupD_addToMap_self _ _ _

/-- Witness for C10: adding the Scenario B rent transaction to an empty
transaction list raises `actual_spent` by exactly its amount. -/
theorem add_transaction_witness :
    (computeMetrics K0 plan0 ([] ++ [t0]) today0).actual_spent
      = (computeMetrics K0 plan0 [] today0).actual_spent + t0.amount :=
  (add_transaction_spec K0 plan0 [] today0 t0 (by decide)
    (by show (0 : ℚ) < 1300; norm_num)).1

end BillOrganizer
